import Mathlib

/-!
Shallow embedding of the magma worker-pool repository: the 2D grid buffer
(src/worker/buffer.ts), the heightmap encoder (src/capabilities/heightmap.ts),
the task-registry type handlers (src/worker/helpers.ts), the worker-side
message protocol (the worker entry file), and the controller-side worker pool
(src/pool/pool.ts).  Numbers that the source manipulates as JS numbers are
modelled as rationals, indices as integers or naturals, and fallible
operations as Except.
-/

namespace Magma

/-! ## Grid buffer (src/worker/buffer.ts) -/

/-- A 2D view over a flat typed array, as built by wrapBuffer.  The Type
parameter of the source's Buffer2D fixes the element kind of the underlying
typed array; its observable effect is the conversion every indexed write
applies to the incoming number (ToUint8 wrapping for Uint8Array, rounding
to binary32 for Float32Array, ToUint8Clamp for Uint8ClampedArray, ...),
carried here as the conv field. -/
structure Buffer2D where
  width : Nat
  height : Nat
  buffer : List Rat
  conv : Rat → Rat

/-- wrapBuffer: fails with a RangeError when the flat length does not match
width*height, otherwise wraps the storage; conv is the element-type write
conversion fixed by the source's Type parameter. -/
def wrapBuffer (buffer : List Rat) (width height : Nat) (conv : Rat → Rat) :
    Except String Buffer2D :=
  if buffer.length ≠ width * height then
    .error "Buffer length does not match size"
  else
    .ok ⟨width, height, buffer, conv⟩

/-- isInBounds from the wrapped buffer object. -/
def Buffer2D.isInBounds (b : Buffer2D) (x y : Int) : Bool :=
  decide (0 ≤ x) && decide (x < (b.width : Int)) &&
  decide (0 ≤ y) && decide (y < (b.height : Int))

/-- getIndex: bounds-checked (unless noCheck) flat index x + y*width. -/
def Buffer2D.getIndex (b : Buffer2D) (x y : Int) (noCheck : Bool) : Except String Int :=
  if !noCheck && !(b.isInBounds x y) then
    .error "Index out of bounds"
  else
    .ok (x + y * (b.width : Int))

/-- Reading a JS array at a possibly out-of-range index yields undefined,
modelled as none. -/
def jsIndexGet (l : List Rat) (i : Int) : Option Rat :=
  if i < 0 then none else l[i.toNat]?

/-- Writing a JS typed array at an out-of-range index is silently ignored
(List.set has exactly that behaviour past the end); an in-range write
stores the element-type conversion of the value, not the value itself. -/
def jsIndexSet (conv : Rat → Rat) (l : List Rat) (i : Int) (v : Rat) : List Rat :=
  if i < 0 then l else l.set i.toNat (conv v)

/-- ECMAScript ToIntegerOrInfinity on a finite number: truncation toward
zero, the first step of every integer-typed-array write conversion. -/
def jsTrunc (x : Rat) : Int :=
  if x < 0 then -(Int.floor (-x)) else Int.floor x

/-- ECMAScript ToUint8, the conversion a Uint8Array applies on write:
truncate toward zero, then wrap modulo 2^8 (the stored element is read
back as a number). -/
def toUint8 (x : Rat) : Rat :=
  (((jsTrunc x).emod (2 ^ 8) : Int) : Rat)

/-- get: reads through getIndex. -/
def Buffer2D.get (b : Buffer2D) (x y : Int) (noCheck : Bool) : Except String (Option Rat) :=
  (b.getIndex x y noCheck).map (fun i => jsIndexGet b.buffer i)

/-- set: writes through getIndex; the typed-array indexed write applies the
buffer's element conversion. -/
def Buffer2D.set (b : Buffer2D) (x y : Int) (value : Rat) (noCheck : Bool) :
    Except String Buffer2D :=
  (b.getIndex x y noCheck).map
    (fun i => { b with buffer := jsIndexSet b.conv b.buffer i value })

/-! ## Heightmap encoder (src/capabilities/heightmap.ts) -/

/-- ECMAScript ToUint8Clamp, the conversion a Uint8ClampedArray applies on
write: clamp to [0, 255], then round to the nearest integer with ties going
to the even neighbour. -/
def uint8Clamp (x : Rat) : Nat :=
  if x ≤ 0 then 0
  else if 255 ≤ x then 255
  else
    let f := (Int.floor x).toNat
    if (f : Rat) + 1/2 < x then f + 1
    else if x < (f : Rat) + 1/2 then f
    else if f % 2 = 1 then f + 1 else f

/-- A JS number that may be undefined (undefined arithmetic gives NaN, and
ToUint8Clamp sends NaN to 0). -/
def jsNumToUint8Clamp : Option Rat → Nat
  | none => 0
  | some q => uint8Clamp q

/-- One iteration of the makeHeightmap loop: reads buffer.buffer at i
(undefined past the end), scales by 255, and writes the four channels at
4i..4i+3 of the Uint8ClampedArray (out-of-range writes are dropped,
which List.set mirrors). -/
def heightmapStep (buffer : List Rat) (data : List Nat) (i : Nat) : List Nat :=
  let value := (jsIndexGet buffer (i : Int)).map (fun v => v * 255)
  let index := i * 4
  let c := jsNumToUint8Clamp value
  (((data.set index c).set (index + 1) c).set (index + 2) c).set (index + 3) 255

/-- makeHeightmap: allocates a zero-filled Uint8ClampedArray of length
width*height*4 and runs the loop for i in [0, data.length). -/
def makeHeightmap (buffer : List Rat) (width height : Nat) : List Nat :=
  (List.range (width * height * 4)).foldl (heightmapStep buffer)
    (List.replicate (width * height * 4) 0)

/-- The channel value the specification's words prescribe, for comparison
with the code: floor(clamp(value*255, 0, 255)). -/
def specFloorChannel (v : Rat) : Nat :=
  (Int.floor (max 0 (min (v * 255) 255))).toNat

/-! ## Type handlers (src/worker/helpers.ts) -/

/-- The object returned by makeTypeHandler, restricted to the fields the
claims mention.  Strings are modelled as character lists. -/
structure TypeHandlerModel where
  type : List Char
  is : List Char → Bool

/-- makeTypeHandler: note that in the source the is-method's parameter is
also called type and shadows the handler's own type, so the method tests
whether its argument starts with the argument itself followed by "/". -/
def makeTypeHandler (t : List Char) : TypeHandlerModel :=
  { type := t
    is := fun s => List.isPrefixOf (s ++ ['/']) s }

/-! ## Worker-side protocol (worker entry file, onMessage) -/

/-- The worker's module-level busy variable: false, or the current task id
(a JS number, so id 0 is falsy). -/
inductive BusyVal
  | fls
  | num (n : Nat)
deriving Repr, DecidableEq

/-- JS truthiness of the busy variable. -/
def BusyVal.truthy : BusyVal → Bool
  | .fls => false
  | .num n => n != 0

/-- Number.MAX_SAFE_INTEGER. -/
def maxSafeInteger : Nat := 2 ^ 53 - 1

/-- One call of the function produced by idGen: wraps the counter to 0 at
MAX_SAFE_INTEGER, returns the id and the next counter value. -/
def getID (counter : Nat) : Nat × Nat :=
  let c := if counter = maxSafeInteger then 0 else counter
  (c, c + 1)

/-- JS String.prototype.split with a one-character separator, over strings
modelled as character lists (String.splitOn is not kernel-reducible, so the
embedding carries its own structurally recursive split). -/
def splitOnChar (sep : Char) : List Char → List (List Char)
  | [] => [[]]
  | c :: rest =>
    let r := splitOnChar sep rest
    if c = sep then [] :: r
    else (c :: r.headD []) :: r.tail

/-- A registered task body, abstracted over what it emits and returns: the
progress payloads it dispatches in order, and its outcome (a return value,
or a raised error message). -/
structure TaskSpec (V : Type) where
  progressEmits : List String
  outcome : Except (List Char) V

/-- The two-level registry built by makeHandler plus the add calls:
category name to a map from subtype name to task. -/
abbrev Registry (V : Type) := List (List Char × List (List Char × TaskSpec V))

/-- Map.get on an association list. -/
def lookupList {κ α : Type} [BEq κ] (l : List (κ × α)) (k : κ) : Option α :=
  (l.find? (fun p => p.fst == k)).map Prod.snd

/-- getHandler from makeHandler: looks the part of the type string before
the first "/" up in the category map. -/
def getHandler {V : Type} (reg : Registry V) (msgType : List Char) :
    Option (List (List Char × TaskSpec V)) :=
  lookupList reg ((splitOnChar '/' msgType).headD [])

/-- The task lookup in onMessage: handler.get(subType), where subType is
the part after the first "/" (absent when the string has no "/", in which
case the map lookup misses). -/
def getTask {V : Type} (tasks : List (List Char × TaskSpec V)) (msgType : List Char) :
    Option (TaskSpec V) :=
  ((splitOnChar '/' msgType)[1]?).bind (fun sub => lookupList tasks sub)

/-- Messages the worker dispatches to the main thread for one request. -/
inductive WorkerMsg (V : Type)
  | start
  | progress (p : String) (duration : Nat)
  | result (v : V) (duration : Nat)
  | error (message : List Char) (duration : Option Nat)
deriving Repr, DecidableEq

/-- A message is terminal when it is result or error. -/
def WorkerMsg.isTerminal {V : Type} : WorkerMsg V → Bool
  | .result _ _ => true
  | .error _ _ => true
  | _ => false

/-- The worker's mutable module state: the busy flag and the id-generator
counter. -/
structure WorkerState where
  busy : BusyVal
  counter : Nat
deriving Repr, DecidableEq

/-- One synchronous run of onMessage: takes the registry, the worker state,
the request's type string and the measured task duration; returns the state
after the final cleanup block together with the dispatched messages in
order.  Mirrors the source: a truthy busy flag raises "Worker is busy"
(caught, dispatched as an error with no duration — and the shared cleanup
block then resets busy to false); otherwise a fresh id is taken, the
category handler is looked up from the part before the first "/", the task
from the part after it, start is dispatched, the task runs (its progress
emissions dispatch while it holds the busy id), and the terminal result or
error is dispatched; the cleanup block always ends with busy = false. -/
def onMessage {V : Type} (reg : Registry V) (st : WorkerState) (msgType : List Char)
    (dur : Nat) : WorkerState × List (WorkerMsg V) :=
  if st.busy.truthy then
    ({ st with busy := .fls }, [.error "Worker is busy".toList none])
  else
    match getHandler reg msgType with
    | none =>
      ({ busy := .fls, counter := (getID st.counter).snd },
       [.error ("Missing handler for type: ".toList ++ msgType) none])
    | some tasks =>
      match getTask tasks msgType with
      | none =>
        ({ busy := .fls, counter := (getID st.counter).snd },
         [.error ("Missing task for type: ".toList ++ msgType) none])
      | some task =>
        match task.outcome with
        | .ok v =>
          ({ busy := .fls, counter := (getID st.counter).snd },
           .start :: (task.progressEmits.map (fun p => WorkerMsg.progress p dur)
             ++ [.result v dur]))
        | .error e =>
          ({ busy := .fls, counter := (getID st.counter).snd },
           .start :: (task.progressEmits.map (fun p => WorkerMsg.progress p dur)
             ++ [.error e (some dur)]))

/-! ## Worker pool (src/pool/pool.ts) -/

/-- The pool's private state.  Workers and deferreds are identified by
naturals.  maxPending is none for the default Infinity.  The scheduled list
models the setTimeout(..., 0) callbacks posted by release and not yet run;
fulfilled, terminated and rejected record the externally visible effects
(deferred.resolve, worker.terminate, deferred.reject). -/
structure PoolState where
  workers : List Nat
  available : List Nat
  pending : List Nat
  scheduled : List (Nat × Nat)
  fulfilled : List (Nat × Nat)
  terminated : List Nat
  rejected : List (Nat × String)
  maxPending : Option Nat
  nextDeferredId : Nat
deriving Repr, DecidableEq

/-- The comparison pending.length >= maxPending (false against Infinity). -/
def maxPendingReached (s : PoolState) : Bool :=
  match s.maxPending with
  | none => false
  | some m => decide (m ≤ s.pending.length)

/-- What one acquire() call does: throw, return an available worker, or
enqueue a deferred and suspend on it. -/
inductive AcquireResult
  | errorNoWorkers
  | acquired (w : Nat)
  | errorMaxPending
  | enqueued (d : Nat)
deriving Repr, DecidableEq

/-- acquire(): throws when the worker list is empty; otherwise shifts an
available worker if any; otherwise throws when the backlog is at or above
maxPending; otherwise pushes a fresh deferred onto the pending queue. -/
def acquire (s : PoolState) : AcquireResult × PoolState :=
  if s.workers.isEmpty then
    (.errorNoWorkers, s)
  else
    match s.available with
    | next :: rest => (.acquired next, { s with available := rest })
    | [] =>
      if maxPendingReached s then
        (.errorMaxPending, s)
      else
        (.enqueued s.nextDeferredId,
         { s with pending := s.pending ++ [s.nextDeferredId],
                  nextDeferredId := s.nextDeferredId + 1 })

/-- What one release(worker) call does. -/
inductive ReleaseResult
  | errorNotInPool
  | scheduledFulfil (d w : Nat)
  | pushedIdle
deriving Repr, DecidableEq

/-- release(worker): throws when the worker is not in the pool; otherwise
shifts the oldest pending deferred and posts its fulfilment with this worker
onto the timer queue (setTimeout 0), or, when no deferred is pending, pushes
the worker onto the available list. -/
def release (s : PoolState) (w : Nat) : ReleaseResult × PoolState :=
  if s.workers.contains w then
    match s.pending with
    | d :: rest =>
      (.scheduledFulfil d w,
       { s with pending := rest, scheduled := s.scheduled ++ [(d, w)] })
    | [] => (.pushedIdle, { s with available := s.available ++ [w] })
  else
    (.errorNotInPool, s)

/-- close(): returns immediately when the worker list is empty; otherwise
terminates every worker, rejects every pending deferred with "Worker pool
closed", and empties the three collections. -/
def close (s : PoolState) : PoolState :=
  if s.workers.isEmpty then s
  else
    { s with workers := [], available := [], pending := [],
             terminated := s.terminated ++ s.workers,
             rejected := s.rejected ++ s.pending.map (fun d => (d, "Worker pool closed")) }

/-- The events that mutate pool state after construction: an acquire call,
a release call, a close call, a worker firing its error event (the
once-listener filters it out of workers and available), and a posted
release fulfilment running. -/
inductive PoolEvent
  | evAcquire
  | evRelease (w : Nat)
  | evClose
  | evWorkerError (w : Nat)
  | evRunScheduled
deriving Repr, DecidableEq

/-- One event's effect on the pool state. -/
def step (s : PoolState) : PoolEvent → PoolState
  | .evAcquire => (acquire s).snd
  | .evRelease w => (release s w).snd
  | .evClose => close s
  | .evWorkerError w =>
    { s with workers := s.workers.filter (fun x => x != w),
             available := s.available.filter (fun x => x != w) }
  | .evRunScheduled =>
    match s.scheduled with
    | [] => s
    | (d, w) :: rest => { s with scheduled := rest, fulfilled := s.fulfilled ++ [(d, w)] }

/-- Running a list of events. -/
def steps (s : PoolState) (events : List PoolEvent) : PoolState :=
  events.foldl step s

/-- The pool state right after construction succeeds: every spawned worker
is in the worker list and the available list, nothing pending. -/
def initialPool (workers : List Nat) (maxPending : Option Nat) : PoolState :=
  { workers := workers, available := workers, pending := [], scheduled := [],
    fulfilled := [], terminated := [], rejected := [], maxPending := maxPending,
    nextDeferredId := 0 }

/-! ## The with helper (src/pool/pool.ts, with) -/

/-- Which phase of with() an AggregateError blames. -/
inductive WithPhase
  | acquirePhase
  | taskPhase
  | releasePhase
deriving Repr, DecidableEq

/-- An AggregateError as with() builds them: the phase its message names
and the single wrapped cause. -/
structure AggError (E : Type) where
  phase : WithPhase
  cause : E
deriving Repr, DecidableEq

/-- The control flow of with(task): acquire (wrapping a failure), then the
task (wrapping a failure), with a finally block that — whenever a worker was
acquired — calls release exactly once and wraps a release failure, which
then supersedes any earlier outcome.  The three phases are oracles so every
interleaving-induced outcome is covered; the second component lists the
workers release was called on. -/
def withTask {E W R : Type} (acq : Except E W) (task : W → Except E R)
    (rel : W → Except E Unit) : Except (AggError E) R × List W :=
  match acq with
  | .error e => (.error ⟨.acquirePhase, e⟩, [])
  | .ok w =>
    let taskRes := task w
    match rel w with
    | .error e => (.error ⟨.releasePhase, e⟩, [w])
    | .ok _ =>
      match taskRes with
      | .error e => (.error ⟨.taskPhase, e⟩, [w])
      | .ok r => (.ok r, [w])

/-! ## Theorems -/

/-- C10: the membership predicate of the handler returned by makeTypeHandler
returns false for every input string, including well-formed category/subtype
strings: the shadowed parameter makes it ask whether a string starts with
itself followed by a slash, which no string does. -/
theorem c10_type_handler_is_never_true (t s : List Char) :
    (makeTypeHandler t).is s = false := by
  show List.isPrefixOf (s ++ ['/']) s = false
  rw [Bool.eq_false_iff]
  intro h
  have hle := List.IsPrefix.length_le (List.isPrefixOf_iff_prefix.mp h)
  simp at hle

/-- C1: evaluating onMessage at a state where the unit is busy serving
request id 5 shows the terminal busy error is emitted, but the shared
cleanup block then clears the busy flag, so the unit does not remain busy
for its in-flight request as the claim requires. -/
theorem c1_busy_rejection_evaluation :
    onMessage (V := Nat) [("terrain".toList, [("generate".toList, ⟨[], .ok 1⟩)])]
        ⟨.num 5, 6⟩ "terrain/generate".toList 3
      = (⟨.fls, 6⟩, [.error "Worker is busy".toList none]) := by
  rfl

/-- C4 counterexample: when the task and the release both fail, the caller
only sees the release-phase aggregate error; the task failure is not
surfaced, contradicting the claim that any failure during the task is
surfaced as a task-phase aggregate error. -/
theorem c4_with_counterexample :
    (withTask (E := String) (W := Nat) (R := Nat) (.ok 0)
        (fun _ => .error "task failed") (fun _ => .error "release failed")).fst
      = .error ⟨.releasePhase, "release failed"⟩
    ∧ (withTask (E := String) (W := Nat) (R := Nat) (.ok 0)
        (fun _ => .error "task failed") (fun _ => .error "release failed")).fst
      ≠ .error ⟨.taskPhase, "task failed"⟩ := by
  refine ⟨rfl, fun h => ?_⟩
  simp [withTask] at h

/-- C4 (amended): whenever the acquire phase succeeds, release is called
exactly once on the acquired worker, however the task and the release end;
a failing acquire, task or release surfaces as an aggregate error naming
that phase with the original error as cause, except that a release failure
supersedes an earlier task failure. -/
theorem c4_with_contract (E W R : Type)
    (taskAny : W → Except E R) (relAny : W → Except E Unit)
    (task taskErr : W → Except E R) (rel relErr : W → Except E Unit)
    (w : W) (r : R) (e1 e2 e3 : E)
    (htask : task w = .ok r) (hrel : rel w = .ok ())
    (htaskErr : taskErr w = .error e2) (hrelErr : relErr w = .error e3) :
    (withTask (Except.ok w) taskAny relAny).snd = [w]
    ∧ (withTask (W := W) (R := R) (Except.error e1) taskAny relAny).snd = []
    ∧ (withTask (W := W) (R := R) (Except.error e1) taskAny relAny).fst
        = .error ⟨.acquirePhase, e1⟩
    ∧ (withTask (Except.ok w) taskErr rel).fst = .error ⟨.taskPhase, e2⟩
    ∧ (withTask (Except.ok w) task relErr).fst = .error ⟨.releasePhase, e3⟩
    ∧ (withTask (Except.ok w) taskErr relErr).fst = .error ⟨.releasePhase, e3⟩
    ∧ (withTask (Except.ok w) task rel).fst = .ok r := by
  refine ⟨?_, rfl, rfl, ?_, ?_, ?_, ?_⟩
  · cases hr : relAny w <;> cases ht : taskAny w <;> simp [withTask, hr, ht]
  · simp [withTask, htaskErr, hrel]
  · simp [withTask, htask, hrelErr]
  · simp [withTask, htaskErr, hrelErr]
  · simp [withTask, htask, hrel]

/-- C4 witness: the contract instantiated at concrete oracles. -/
theorem c4_with_contract_witness :
    ((fun _ : Nat => (Except.ok 7 : Except String Nat)) 0 = .ok 7)
    ∧ ((fun _ : Nat => (Except.ok () : Except String Unit)) 0 = .ok ())
    ∧ ((fun _ : Nat => (Except.error "t" : Except String Nat)) 0 = .error "t")
    ∧ ((fun _ : Nat => (Except.error "r" : Except String Unit)) 0 = .error "r")
    ∧ ((withTask (Except.ok 0) (fun _ : Nat => (Except.ok 7 : Except String Nat))
          (fun _ => Except.ok ())).snd = [0]
       ∧ (withTask (W := Nat) (R := Nat) (Except.error "a")
            (fun _ => (Except.ok 7 : Except String Nat)) (fun _ => Except.ok ())).snd = []
       ∧ (withTask (W := Nat) (R := Nat) (Except.error "a")
            (fun _ => (Except.ok 7 : Except String Nat)) (fun _ => Except.ok ())).fst
           = .error ⟨.acquirePhase, "a"⟩
       ∧ (withTask (Except.ok 0) (fun _ : Nat => (Except.error "t" : Except String Nat))
            (fun _ => Except.ok ())).fst = .error ⟨.taskPhase, "t"⟩
       ∧ (withTask (Except.ok 0) (fun _ : Nat => (Except.ok 7 : Except String Nat))
            (fun _ => (Except.error "r" : Except String Unit))).fst
           = .error ⟨.releasePhase, "r"⟩
       ∧ (withTask (Except.ok 0) (fun _ : Nat => (Except.error "t" : Except String Nat))
            (fun _ => (Except.error "r" : Except String Unit))).fst
           = .error ⟨.releasePhase, "r"⟩
       ∧ (withTask (Except.ok 0) (fun _ : Nat => (Except.ok 7 : Except String Nat))
            (fun _ => Except.ok ())).fst = .ok 7) :=
  ⟨rfl, rfl, rfl, rfl,
   c4_with_contract String Nat Nat
     (fun _ => Except.ok 7) (fun _ => Except.ok ())
     (fun _ => Except.ok 7) (fun _ => Except.error "t")
     (fun _ => Except.ok ()) (fun _ => Except.error "r")
     0 7 "a" "t" "r" rfl rfl rfl rfl⟩

/-- C5: acquire fails immediately on an empty pool; pops and returns the
first available worker when one is idle; fails with the capacity error and
leaves the state (in particular the pending queue) untouched when the
backlog is at or above maxPending; and otherwise appends exactly one fresh
deferred at the tail of the FIFO pending queue. -/
theorem c5_acquire_contract
    (s1 s2 s3 s4 : PoolState) (w : Nat) (rest : List Nat)
    (h1 : s1.workers = [])
    (h2w : s2.workers ≠ []) (h2a : s2.available = w :: rest)
    (h3w : s3.workers ≠ []) (h3a : s3.available = []) (h3m : maxPendingReached s3 = true)
    (h4w : s4.workers ≠ []) (h4a : s4.available = []) (h4m : maxPendingReached s4 = false) :
    acquire s1 = (.errorNoWorkers, s1)
    ∧ acquire s2 = (.acquired w, { s2 with available := rest })
    ∧ acquire s3 = (.errorMaxPending, s3)
    ∧ acquire s4 = (.enqueued s4.nextDeferredId,
        { s4 with pending := s4.pending ++ [s4.nextDeferredId],
                  nextDeferredId := s4.nextDeferredId + 1 }) := by
  refine ⟨?_, ?_, ?_, ?_⟩
  · simp [acquire, List.isEmpty_iff.mpr h1]
  · simp [acquire, h2a, List.isEmpty_iff, h2w]
  · simp [acquire, h3a, h3m, List.isEmpty_iff, h3w]
  · simp [acquire, h4a, h4m, List.isEmpty_iff, h4w]

/-- C5 witness: the acquire contract at concrete pool states. -/
theorem c5_acquire_contract_witness :
    ((initialPool [] none).workers = [])
    ∧ ((initialPool [1, 2] none).workers ≠ [])
    ∧ ((initialPool [1, 2] none).available = 1 :: [2])
    ∧ (({ initialPool [1] (some 0) with available := [] } : PoolState).workers ≠ [])
    ∧ (({ initialPool [1] (some 0) with available := [] } : PoolState).available = [])
    ∧ maxPendingReached ({ initialPool [1] (some 0) with available := [] }) = true
    ∧ (({ initialPool [1] none with available := [] } : PoolState).workers ≠ [])
    ∧ (({ initialPool [1] none with available := [] } : PoolState).available = [])
    ∧ maxPendingReached ({ initialPool [1] none with available := [] }) = false
    ∧ (acquire (initialPool [] none) = (.errorNoWorkers, initialPool [] none)
       ∧ acquire (initialPool [1, 2] none)
           = (.acquired 1, { initialPool [1, 2] none with available := [2] })
       ∧ acquire ({ initialPool [1] (some 0) with available := [] })
           = (.errorMaxPending, { initialPool [1] (some 0) with available := [] })
       ∧ acquire ({ initialPool [1] none with available := [] })
           = (.enqueued ({ initialPool [1] none with available := [] } : PoolState).nextDeferredId,
              { initialPool [1] none with
                  available := [],
                  pending := ({ initialPool [1] none with available := [] } : PoolState).pending
                    ++ [({ initialPool [1] none with available := [] } : PoolState).nextDeferredId],
                  nextDeferredId :=
                    ({ initialPool [1] none with available := [] } : PoolState).nextDeferredId + 1 })) :=
  ⟨by decide, by decide, by decide, by decide, by decide, by decide, by decide, by decide,
   by decide,
   c5_acquire_contract (initialPool [] none) (initialPool [1, 2] none)
     ({ initialPool [1] (some 0) with available := [] })
     ({ initialPool [1] none with available := [] }) 1 [2]
     (by decide) (by decide) (by decide) (by decide) (by decide) (by decide)
     (by decide) (by decide) (by decide)⟩

/-- C6: release fails when the worker is not a pool member; with a
non-empty pending queue it removes the oldest deferred and posts its
fulfilment with the released worker onto the timer queue (it resolves on a
later turn, and the worker is not pushed onto the idle list); with an empty
pending queue it appends the worker to the idle list. -/
theorem c6_release_contract
    (s1 s2 s3 : PoolState) (w1 w2 w3 d : Nat) (rest : List Nat)
    (h1 : w1 ∉ s1.workers)
    (h2 : w2 ∈ s2.workers) (h2p : s2.pending = d :: rest)
    (h3 : w3 ∈ s3.workers) (h3p : s3.pending = []) :
    release s1 w1 = (.errorNotInPool, s1)
    ∧ release s2 w2 = (.scheduledFulfil d w2,
        { s2 with pending := rest, scheduled := s2.scheduled ++ [(d, w2)] })
    ∧ release s3 w3 = (.pushedIdle, { s3 with available := s3.available ++ [w3] }) := by
  refine ⟨?_, ?_, ?_⟩
  · simp [release, h1]
  · simp [release, h2, h2p]
  · simp [release, h3, h3p]

/-- C6 witness: the release contract at concrete pool states. -/
theorem c6_release_contract_witness :
    (9 ∉ (initialPool [1] none).workers)
    ∧ (2 ∈ ({ initialPool [1, 2] none with available := [], pending := [4, 5, 6] }
          : PoolState).workers)
    ∧ (({ initialPool [1, 2] none with available := [], pending := [4, 5, 6] }
          : PoolState).pending = 4 :: [5, 6])
    ∧ (1 ∈ (initialPool [1] none).workers)
    ∧ ((initialPool [1] none).pending = [])
    ∧ (release (initialPool [1] none) 9 = (.errorNotInPool, initialPool [1] none)
       ∧ release ({ initialPool [1, 2] none with available := [], pending := [4, 5, 6] }) 2
           = (.scheduledFulfil 4 2,
              { initialPool [1, 2] none with
                  available := [], pending := [5, 6],
                  scheduled := ({ initialPool [1, 2] none with
                    available := [], pending := [4, 5, 6] } : PoolState).scheduled ++ [(4, 2)] })
       ∧ release (initialPool [1] none) 1
           = (.pushedIdle,
              { initialPool [1] none with
                  available := (initialPool [1] none).available ++ [1] })) :=
  ⟨by decide, by decide, by decide, by decide, by decide,
   c6_release_contract (initialPool [1] none)
     ({ initialPool [1, 2] none with available := [], pending := [4, 5, 6] })
     (initialPool [1] none) 9 2 1 4 [5, 6]
     (by decide) (by decide) (by decide) (by decide) (by decide)⟩

/-- C3 counterexample: starting from a freshly constructed single-worker
pool, acquire the worker, queue a second acquire, and let the worker fire
its error event; the worker list is now empty while a deferred is still
pending, so close() returns through its early guard without rejecting the
pending future or emptying the pending queue. -/
theorem c3_close_counterexample :
    (close (steps (initialPool [0] none) [.evAcquire, .evAcquire, .evWorkerError 0])).pending
      = [0]
    ∧ (close (steps (initialPool [0] none) [.evAcquire, .evAcquire, .evWorkerError 0])).rejected
      = [] := by
  decide

/-- C3 (amended): when the worker list is non-empty, close terminates every
worker, rejects every still-pending deferred with the pool-closed failure,
and empties the worker, available and pending collections; when the worker
list is empty — also right after a close — it is a no-op, even if pending
deferreds remain, and close is therefore idempotent. -/
theorem c3_close_contract (s t u : PoolState)
    (h : s.workers ≠ []) (ht : t.workers = []) :
    (close s).workers = []
    ∧ (close s).available = []
    ∧ (close s).pending = []
    ∧ (close s).terminated = s.terminated ++ s.workers
    ∧ (close s).rejected = s.rejected ++ s.pending.map (fun d => (d, "Worker pool closed"))
    ∧ close t = t
    ∧ close (close u) = close u := by
  have hs : s.workers.isEmpty = false := by
    cases hsw : s.workers with
    | nil => exact absurd hsw h
    | cons a l => rfl
  have ht' : t.workers.isEmpty = true := List.isEmpty_iff.mpr ht
  refine ⟨?_, ?_, ?_, ?_, ?_, ?_, ?_⟩
  · simp [close, hs]
  · simp [close, hs]
  · simp [close, hs]
  · simp [close, hs]
  · simp [close, hs]
  · simp [close, ht']
  · by_cases hu : u.workers.isEmpty
    · simp [close, hu]
    · have h2 : (close u).workers = [] := by
        simp [close, hu]
      have h2' : (close u).workers.isEmpty = true := List.isEmpty_iff.mpr h2
      conv in close (close u) => rw [close]
      simp [h2']

/-- C3 witness: the close contract at concrete pool states. -/
theorem c3_close_contract_witness :
    (({ initialPool [1, 2] none with pending := [4] } : PoolState).workers ≠ [])
    ∧ ((initialPool [] none).workers = [])
    ∧ ((close ({ initialPool [1, 2] none with pending := [4] })).workers = []
       ∧ (close ({ initialPool [1, 2] none with pending := [4] })).available = []
       ∧ (close ({ initialPool [1, 2] none with pending := [4] })).pending = []
       ∧ (close ({ initialPool [1, 2] none with pending := [4] })).terminated
           = ({ initialPool [1, 2] none with pending := [4] } : PoolState).terminated
             ++ ({ initialPool [1, 2] none with pending := [4] } : PoolState).workers
       ∧ (close ({ initialPool [1, 2] none with pending := [4] })).rejected
           = ({ initialPool [1, 2] none with pending := [4] } : PoolState).rejected
             ++ ({ initialPool [1, 2] none with pending := [4] } : PoolState).pending.map
                  (fun d => (d, "Worker pool closed"))
       ∧ close (initialPool [] none) = initialPool [] none
       ∧ close (close (initialPool [3] none)) = close (initialPool [3] none)) :=
  ⟨by decide, by decide,
   c3_close_contract ({ initialPool [1, 2] none with pending := [4] })
     (initialPool [] none) (initialPool [3] none) (by decide) (by decide)⟩

/-- Helper for C9: absence from both the worker and the available list is
preserved by every pool event. -/
theorem not_mem_step (w : Nat) (s : PoolState) (e : PoolEvent)
    (hw : w ∉ s.workers) (ha : w ∉ s.available) :
    w ∉ (step s e).workers ∧ w ∉ (step s e).available := by
  cases e with
  | evAcquire =>
    simp only [step]
    unfold acquire
    split
    · exact ⟨hw, ha⟩
    · split
      · rename_i next rest heq
        refine ⟨hw, fun hm => ha ?_⟩
        rw [heq]
        exact List.mem_cons_of_mem next hm
      · split
        · exact ⟨hw, ha⟩
        · exact ⟨hw, ha⟩
  | evRelease w2 =>
    simp only [step]
    unfold release
    split
    · rename_i hmem
      have hw2 : w2 ∈ s.workers := by simpa using hmem
      split
      · exact ⟨hw, ha⟩
      · refine ⟨hw, fun hm => ?_⟩
        rcases List.mem_append.mp hm with hm | hm
        · exact ha hm
        · simp at hm
          subst hm
          exact hw hw2
    · exact ⟨hw, ha⟩
  | evClose =>
    simp only [step]
    unfold close
    split
    · exact ⟨hw, ha⟩
    · exact ⟨by simp, by simp⟩
  | evWorkerError w2 =>
    simp only [step]
    constructor
    · intro hm
      exact hw (List.mem_filter.mp hm).1
    · intro hm
      exact ha (List.mem_filter.mp hm).1
  | evRunScheduled =>
    simp only [step]
    split
    · exact ⟨hw, ha⟩
    · exact ⟨hw, ha⟩

/-- Helper for C9: absence from both lists is preserved by every event
trace. -/
theorem not_mem_steps (w : Nat) (s : PoolState) (tr : List PoolEvent)
    (hw : w ∉ s.workers) (ha : w ∉ s.available) :
    w ∉ (steps s tr).workers ∧ w ∉ (steps s tr).available := by
  induction tr generalizing s with
  | nil => exact ⟨hw, ha⟩
  | cons e es ih =>
    have h := not_mem_step w s e hw ha
    simpa [steps] using ih (step s e) h.1 h.2

/-- Helper for C9: a worker's error event removes it from both lists. -/
theorem evict_not_mem (w : Nat) (s : PoolState) :
    w ∉ (step s (.evWorkerError w)).workers
    ∧ w ∉ (step s (.evWorkerError w)).available := by
  constructor <;>
  · intro hm
    have h := List.mem_filter.mp hm
    simp at h

/-- Helper for C9: acquire never returns a worker that is missing from the
available list. -/
theorem acquire_not_acquired (s : PoolState) (w : Nat) (ha : w ∉ s.available) :
    (acquire s).fst ≠ .acquired w := by
  unfold acquire
  split
  · simp
  · split
    · rename_i next rest heq
      intro hcon
      simp only [AcquireResult.acquired.injEq] at hcon
      subst hcon
      exact ha (heq ▸ List.mem_cons_self next rest)
    · split
      · simp
      · simp

/-- Helper for C9: release never posts a fulfilment carrying a worker that
is missing from the worker list. -/
theorem release_no_schedule_of_not_mem (s : PoolState) (w w2 d : Nat)
    (hw : w ∉ s.workers) :
    (release s w2).fst ≠ .scheduledFulfil d w := by
  unfold release
  split
  · rename_i hmem
    have hw2 : w2 ∈ s.workers := by simpa using hmem
    split
    · intro hcon
      simp only [ReleaseResult.scheduledFulfil.injEq] at hcon
      exact hw (hcon.2 ▸ hw2)
    · simp
  · simp

/-- C9: after a worker fires its error event it is gone from the worker
and the available lists in every later reachable state; an acquire in any
such state never returns it directly, and a release in any such state
never posts a pending-queue fulfilment carrying it, so no acquire call made
after the fault ever obtains that worker. -/
theorem c9_fault_eviction_permanent (s : PoolState) (w w2 d : Nat)
    (tr : List PoolEvent) :
    w ∉ (steps (step s (.evWorkerError w)) tr).workers
    ∧ w ∉ (steps (step s (.evWorkerError w)) tr).available
    ∧ (acquire (steps (step s (.evWorkerError w)) tr)).fst ≠ .acquired w
    ∧ (release (steps (step s (.evWorkerError w)) tr) w2).fst ≠ .scheduledFulfil d w := by
  obtain ⟨hw0, ha0⟩ := evict_not_mem w s
  obtain ⟨hw, ha⟩ := not_mem_steps w _ tr hw0 ha0
  exact ⟨hw, ha, acquire_not_acquired _ w ha, release_no_schedule_of_not_mem _ w w2 d hw⟩

/-- Helper for C7: progress messages are never terminal. -/
theorem countP_terminal_progress {V : Type} (l : List String) (dur : Nat) :
    ((l.map (fun p => WorkerMsg.progress (V := V) p dur)).countP
        (fun m => m.isTerminal)) = 0 := by
  induction l with
  | nil => rfl
  | cons a l ih => simp [List.countP_cons, WorkerMsg.isTerminal, ih]

/-- Helper for C7: every branch of onMessage ends with the busy flag reset
to false and exactly one terminal message dispatched. -/
theorem onMessage_cleanup {V : Type} (reg : Registry V) (st : WorkerState)
    (msgType : List Char) (dur : Nat) :
    (onMessage reg st msgType dur).fst.busy = .fls
    ∧ ((onMessage reg st msgType dur).snd.countP (fun m => m.isTerminal)) = 1 := by
  unfold onMessage
  by_cases hb : st.busy.truthy
  · simp [hb, List.countP_cons, WorkerMsg.isTerminal]
  · rw [if_neg hb]
    split
    · simp [List.countP_cons, WorkerMsg.isTerminal]
    · split
      · simp [List.countP_cons, WorkerMsg.isTerminal]
      · split <;>
          simp [List.countP_cons, List.countP_append, WorkerMsg.isTerminal,
                countP_terminal_progress]

/-- C7: after any single request the unit's busy flag is cleared again and
exactly one terminal message was dispatched, whatever the outcome; and when
an idle unit is sent a request whose task body raises, the dispatched
messages are exactly the start message, the task's progress messages, and
one terminal error carrying the raised message — the fault neither crashes
the handler nor leaves the flag set. -/
theorem c7_unit_idle_after_request {V : Type} (reg reg2 : Registry V)
    (st st2 : WorkerState) (msgType msgType2 : List Char) (dur dur2 : Nat)
    (tasks : List (List Char × TaskSpec V)) (task : TaskSpec V) (e : List Char)
    (hidle : st.busy = .fls)
    (hcat : getHandler reg msgType = some tasks)
    (htask : getTask tasks msgType = some task)
    (herr : task.outcome = .error e) :
    (onMessage reg2 st2 msgType2 dur2).fst.busy = .fls
    ∧ ((onMessage reg2 st2 msgType2 dur2).snd.countP (fun m => m.isTerminal)) = 1
    ∧ (onMessage reg st msgType dur).snd
        = .start :: (task.progressEmits.map (fun p => WorkerMsg.progress p dur)
            ++ [.error e (some dur)])
    ∧ (onMessage reg st msgType dur).fst.busy = .fls := by
  obtain ⟨hbusy2, hterm2⟩ := onMessage_cleanup reg2 st2 msgType2 dur2
  refine ⟨hbusy2, hterm2, ?_, (onMessage_cleanup reg st msgType dur).1⟩
  unfold onMessage
  simp [hidle, BusyVal.truthy, hcat, htask, herr]

/-- C7 witness: a task that raises, run on an idle unit. -/
theorem c7_unit_idle_after_request_witness :
    ((⟨.fls, 0⟩ : WorkerState).busy = .fls)
    ∧ (getHandler [("t".toList, [("x".toList, (⟨["p"], .error "boom".toList⟩ : TaskSpec Nat))])]
         "t/x".toList
        = some [("x".toList, (⟨["p"], .error "boom".toList⟩ : TaskSpec Nat))])
    ∧ (getTask [("x".toList, (⟨["p"], .error "boom".toList⟩ : TaskSpec Nat))] "t/x".toList
        = some (⟨["p"], .error "boom".toList⟩ : TaskSpec Nat))
    ∧ ((⟨["p"], .error "boom".toList⟩ : TaskSpec Nat).outcome = .error "boom".toList)
    ∧ ((onMessage [("t".toList, [("x".toList, (⟨["p"], .error "boom".toList⟩ : TaskSpec Nat))])]
          ⟨.num 3, 9⟩ "other/x".toList 5).fst.busy = .fls
       ∧ ((onMessage [("t".toList, [("x".toList, (⟨["p"], .error "boom".toList⟩ : TaskSpec Nat))])]
            ⟨.num 3, 9⟩ "other/x".toList 5).snd.countP (fun m => m.isTerminal)) = 1
       ∧ (onMessage [("t".toList, [("x".toList, (⟨["p"], .error "boom".toList⟩ : TaskSpec Nat))])]
            ⟨.fls, 0⟩ "t/x".toList 5).snd
           = .start :: ((⟨["p"], .error "boom".toList⟩ : TaskSpec Nat).progressEmits.map
               (fun p => WorkerMsg.progress p 5) ++ [.error "boom".toList (some 5)])
       ∧ (onMessage [("t".toList, [("x".toList, (⟨["p"], .error "boom".toList⟩ : TaskSpec Nat))])]
            ⟨.fls, 0⟩ "t/x".toList 5).fst.busy = .fls) :=
  ⟨rfl, rfl, rfl, rfl,
   c7_unit_idle_after_request
     [("t".toList, [("x".toList, (⟨["p"], .error "boom".toList⟩ : TaskSpec Nat))])]
     [("t".toList, [("x".toList, (⟨["p"], .error "boom".toList⟩ : TaskSpec Nat))])]
     ⟨.fls, 0⟩ ⟨.num 3, 9⟩ "t/x".toList "other/x".toList 5 5
     [("x".toList, (⟨["p"], .error "boom".toList⟩ : TaskSpec Nat))]
     (⟨["p"], .error "boom".toList⟩ : TaskSpec Nat) "boom".toList rfl rfl rfl rfl⟩

/-- C9 witness: the eviction guarantees on a concrete two-worker pool and a
concrete post-fault trace. -/
theorem c9_fault_eviction_permanent_witness :
    1 ∉ (steps (step (initialPool [1, 2] none) (.evWorkerError 1))
          [.evAcquire, .evAcquire, .evRelease 2, .evRunScheduled]).workers
    ∧ 1 ∉ (steps (step (initialPool [1, 2] none) (.evWorkerError 1))
          [.evAcquire, .evAcquire, .evRelease 2, .evRunScheduled]).available
    ∧ (acquire (steps (step (initialPool [1, 2] none) (.evWorkerError 1))
          [.evAcquire, .evAcquire, .evRelease 2, .evRunScheduled])).fst ≠ .acquired 1
    ∧ (release (steps (step (initialPool [1, 2] none) (.evWorkerError 1))
          [.evAcquire, .evAcquire, .evRelease 2, .evRunScheduled]) 2).fst
        ≠ .scheduledFulfil 0 1 :=
  c9_fault_eviction_permanent (initialPool [1, 2] none) 1 2 0
    [.evAcquire, .evAcquire, .evRelease 2, .evRunScheduled]

/-- Helper for C8: the Bool bounds test decodes to the arithmetic bounds. -/
theorem isInBounds_iff (b : Buffer2D) (x y : Int) :
    b.isInBounds x y = true ↔
      (0 ≤ x ∧ x < (b.width : Int) ∧ 0 ≤ y ∧ y < (b.height : Int)) := by
  simp [Buffer2D.isInBounds, and_assoc]

/-- Helper for C8: checked getIndex as one conditional equation. -/
theorem getIndex_eq (b : Buffer2D) (x y : Int) :
    b.getIndex x y false =
      (if 0 ≤ x ∧ x < (b.width : Int) ∧ 0 ≤ y ∧ y < (b.height : Int)
       then .ok (x + y * (b.width : Int)) else .error "Index out of bounds") := by
  by_cases hin : 0 ≤ x ∧ x < (b.width : Int) ∧ 0 ≤ y ∧ y < (b.height : Int)
  · rw [if_pos hin]
    unfold Buffer2D.getIndex
    rw [(isInBounds_iff b x y).mpr hin]
    rfl
  · rw [if_neg hin]
    unfold Buffer2D.getIndex
    have hfalse : b.isInBounds x y = false := by
      rw [Bool.eq_false_iff]
      intro htrue
      exact hin ((isInBounds_iff b x y).mp htrue)
    rw [hfalse]
    rfl

/-- C8 counterexample: on a Uint8Array-backed 1×1 buffer, writing 300 at
(0, 0) stores ToUint8(300) = 44, so the checked set-then-get round trip
returns 44, not the written 300: the element-type write conversion of the
underlying typed array breaks the exact round trip the claim states. -/
theorem c8_roundtrip_counterexample :
    ((Buffer2D.mk 1 1 [0] toUint8).set 0 0 300 false).bind (fun b2 => b2.get 0 0 false)
      = .ok (some 44)
    ∧ ((Buffer2D.mk 1 1 [0] toUint8).set 0 0 300 false).bind (fun b2 => b2.get 0 0 false)
      ≠ .ok (some 300) := by
  have hconv : toUint8 (300 : Rat) = 44 := by
    norm_num [toUint8, jsTrunc,
      show ((300 : Int).emod (2 ^ 8)) = 44 from by decide,
      show ((300 : Int).emod 256) = 44 from by decide]
  have hrun : ((Buffer2D.mk 1 1 [0] toUint8).set 0 0 300 false).bind
      (fun b2 => b2.get 0 0 false) = .ok (some (toUint8 300)) := rfl
  refine ⟨by rw [hrun, hconv], ?_⟩
  rw [hrun, hconv]
  intro h
  rw [Except.ok.injEq, Option.some.injEq] at h
  norm_num at h

/-- C8 (amended): wrapping storage of the right length succeeds and a
mismatched length fails with the range error; on the wrapped buffer,
checked getIndex, get and set succeed exactly on in-bounds coordinates —
getIndex returning x + y*width and all three failing with the out-of-range
error otherwise — and a checked set followed by a checked get at in-bounds
coordinates returns the element-type write conversion of the written value
(modulo-2^w wrapping for integer arrays, binary32 rounding for
Float32Array, ToUint8Clamp for Uint8ClampedArray), which equals the
written value exactly when the conversion fixes it. -/
theorem c8_buffer_contract
    (conv : Rat → Rat) (storage s2 : List Rat) (width height : Nat)
    (x y x0 y0 : Int) (v : Rat)
    (hlen : storage.length = width * height)
    (hs2 : s2.length ≠ width * height)
    (hx0 : 0 ≤ x0) (hxw : x0 < (width : Int)) (hy0 : 0 ≤ y0) (hyh : y0 < (height : Int)) :
    wrapBuffer storage width height conv = .ok ⟨width, height, storage, conv⟩
    ∧ wrapBuffer s2 width height conv = .error "Buffer length does not match size"
    ∧ (Buffer2D.mk width height storage conv).getIndex x y false =
        (if 0 ≤ x ∧ x < (width : Int) ∧ 0 ≤ y ∧ y < (height : Int)
         then .ok (x + y * (width : Int)) else .error "Index out of bounds")
    ∧ (Buffer2D.mk width height storage conv).get x y false =
        (if 0 ≤ x ∧ x < (width : Int) ∧ 0 ≤ y ∧ y < (height : Int)
         then .ok (jsIndexGet storage (x + y * (width : Int)))
         else .error "Index out of bounds")
    ∧ (Buffer2D.mk width height storage conv).set x y v false =
        (if 0 ≤ x ∧ x < (width : Int) ∧ 0 ≤ y ∧ y < (height : Int)
         then .ok ⟨width, height, jsIndexSet conv storage (x + y * (width : Int)) v, conv⟩
         else .error "Index out of bounds")
    ∧ (((Buffer2D.mk width height storage conv).set x0 y0 v false).bind
        (fun b2 => b2.get x0 y0 false)) = .ok (some (conv v)) := by
  have hidx0 : 0 ≤ x0 + y0 * (width : Int) :=
    add_nonneg hx0 (mul_nonneg hy0 (Int.natCast_nonneg width))
  have hlt : (x0 + y0 * (width : Int)).toNat < storage.length := by
    rw [hlen]
    rw [Int.toNat_lt hidx0]
    push_cast
    nlinarith [mul_le_mul_of_nonneg_right
      (by omega : y0 ≤ (height : Int) - 1) (Int.natCast_nonneg width)]
  refine ⟨?_, ?_, getIndex_eq _ x y, ?_, ?_, ?_⟩
  · simp [wrapBuffer, hlen]
  · simp [wrapBuffer, hs2]
  · unfold Buffer2D.get
    rw [getIndex_eq]
    by_cases hin : 0 ≤ x ∧ x < (width : Int) ∧ 0 ≤ y ∧ y < (height : Int) <;>
      simp [hin, Except.map]
  · unfold Buffer2D.set
    rw [getIndex_eq]
    by_cases hin : 0 ≤ x ∧ x < (width : Int) ∧ 0 ≤ y ∧ y < (height : Int) <;>
      simp [hin, Except.map]
  · have hin0 : (0 : Int) ≤ x0 ∧ x0 < (width : Int) ∧ (0 : Int) ≤ y0 ∧ y0 < (height : Int) :=
      ⟨hx0, hxw, hy0, hyh⟩
    unfold Buffer2D.set Buffer2D.get
    rw [getIndex_eq, if_pos hin0]
    show (Except.ok _).bind _ = _
    rw [Except.bind]
    show Except.map _ _ = _
    rw [getIndex_eq, if_pos hin0]
    show Except.ok _ = _
    unfold jsIndexGet jsIndexSet
    dsimp only
    simp only [if_neg (not_lt.mpr hidx0)]
    rw [List.getElem?_set_eq_of_lt (conv v) hlt]

/-- C8 witness: the buffer contract on a Uint8Array-backed 3×2 grid, with
an out-of-bounds probe at (5, 0) and a round trip at (1, 1). -/
theorem c8_buffer_contract_witness :
    (([0, 0, 0, 0, 0, 0] : List Rat).length = 3 * 2)
    ∧ (([0] : List Rat).length ≠ 3 * 2)
    ∧ ((0 : Int) ≤ 1) ∧ ((1 : Int) < (3 : Nat)) ∧ ((0 : Int) ≤ 1) ∧ ((1 : Int) < (2 : Nat))
    ∧ (wrapBuffer [0, 0, 0, 0, 0, 0] 3 2 toUint8 = .ok ⟨3, 2, [0, 0, 0, 0, 0, 0], toUint8⟩
       ∧ wrapBuffer [0] 3 2 toUint8 = .error "Buffer length does not match size"
       ∧ (Buffer2D.mk 3 2 [0, 0, 0, 0, 0, 0] toUint8).getIndex 5 0 false =
           (if (0 : Int) ≤ 5 ∧ (5 : Int) < ((3 : Nat) : Int)
               ∧ (0 : Int) ≤ 0 ∧ (0 : Int) < ((2 : Nat) : Int)
            then .ok (5 + 0 * ((3 : Nat) : Int)) else .error "Index out of bounds")
       ∧ (Buffer2D.mk 3 2 [0, 0, 0, 0, 0, 0] toUint8).get 5 0 false =
           (if (0 : Int) ≤ 5 ∧ (5 : Int) < ((3 : Nat) : Int)
               ∧ (0 : Int) ≤ 0 ∧ (0 : Int) < ((2 : Nat) : Int)
            then .ok (jsIndexGet [0, 0, 0, 0, 0, 0] (5 + 0 * ((3 : Nat) : Int)))
            else .error "Index out of bounds")
       ∧ (Buffer2D.mk 3 2 [0, 0, 0, 0, 0, 0] toUint8).set 5 0 7 false =
           (if (0 : Int) ≤ 5 ∧ (5 : Int) < ((3 : Nat) : Int)
               ∧ (0 : Int) ≤ 0 ∧ (0 : Int) < ((2 : Nat) : Int)
            then .ok ⟨3, 2, jsIndexSet toUint8 [0, 0, 0, 0, 0, 0] (5 + 0 * ((3 : Nat) : Int)) 7,
                      toUint8⟩
            else .error "Index out of bounds")
       ∧ (((Buffer2D.mk 3 2 [0, 0, 0, 0, 0, 0] toUint8).set 1 1 7 false).bind
           (fun b2 => b2.get 1 1 false)) = .ok (some (toUint8 7))) :=
  ⟨rfl, by decide, by decide, by decide, by decide, by decide,
   c8_buffer_contract toUint8 [0, 0, 0, 0, 0, 0] [0] 3 2 5 0 1 1 7
     rfl (by decide) (by decide) (by decide) (by decide) (by decide)⟩

/-- Helper for C2: the heightmap loop preserves the pixel array length. -/
theorem heightmap_fold_length (buffer : List Rat) (l : List Nat) (data : List Nat) :
    (l.foldl (heightmapStep buffer) data).length = data.length := by
  induction l generalizing data with
  | nil => rfl
  | cons a l ih =>
    rw [List.foldl_cons, ih]
    simp [heightmapStep]

/-- Helper for C2: once the loop has run past cell i, the cell's four
channel slots hold the encoded value three times and the alpha byte. -/
theorem heightmap_fold_cells (buffer : List Rat) (n : Nat) (data : List Nat) (i : Nat)
    (hi : i < n) (hb : i * 4 + 3 < data.length) :
    ((List.range n).foldl (heightmapStep buffer) data)[i * 4]?
        = some (jsNumToUint8Clamp ((jsIndexGet buffer (i : Int)).map (fun v => v * 255)))
    ∧ ((List.range n).foldl (heightmapStep buffer) data)[i * 4 + 1]?
        = some (jsNumToUint8Clamp ((jsIndexGet buffer (i : Int)).map (fun v => v * 255)))
    ∧ ((List.range n).foldl (heightmapStep buffer) data)[i * 4 + 2]?
        = some (jsNumToUint8Clamp ((jsIndexGet buffer (i : Int)).map (fun v => v * 255)))
    ∧ ((List.range n).foldl (heightmapStep buffer) data)[i * 4 + 3]? = some 255 := by
  induction n with
  | zero => omega
  | succ n ih =>
    rw [List.range_succ, List.foldl_append, List.foldl_cons, List.foldl_nil]
    have hDlen : ((List.range n).foldl (heightmapStep buffer) data).length = data.length :=
      heightmap_fold_length buffer _ data
    rcases Nat.lt_or_ge i n with hlt | hge
    · obtain ⟨e0, e1, e2, e3⟩ := ih hlt
      simp only [heightmapStep]
      refine ⟨?_, ?_, ?_, ?_⟩ <;>
        rw [List.getElem?_set_ne (by omega), List.getElem?_set_ne (by omega),
            List.getElem?_set_ne (by omega), List.getElem?_set_ne (by omega)]
      · exact e0
      · exact e1
      · exact e2
      · exact e3
    · have hieq : i = n := by omega
      subst hieq
      simp only [heightmapStep]
      refine ⟨?_, ?_, ?_, ?_⟩
      · rw [List.getElem?_set_ne (by omega), List.getElem?_set_ne (by omega),
            List.getElem?_set_ne (by omega)]
        exact List.getElem?_set_eq_of_lt _ (by rw [hDlen]; omega)
      · rw [List.getElem?_set_ne (by omega), List.getElem?_set_ne (by omega)]
        exact List.getElem?_set_eq_of_lt _ (by simp only [List.length_set]; rw [hDlen]; omega)
      · rw [List.getElem?_set_ne (by omega)]
        exact List.getElem?_set_eq_of_lt _ (by simp only [List.length_set]; rw [hDlen]; omega)
      · exact List.getElem?_set_eq_of_lt _ (by simp only [List.length_set]; rw [hDlen]; omega)

/-- C2 counterexample: on the 1×1 grid holding 0.5 the code produces the
pixel {128, 128, 128, 255} — Uint8ClampedArray rounds 127.5 to the even
neighbour 128 — while floor(clamp(0.5*255, 0, 255)) is 127, so the claimed
floor encoding does not match the code. -/
theorem c2_heightmap_floor_counterexample :
    makeHeightmap [(1 : Rat)/2] 1 1 = [128, 128, 128, 255]
    ∧ specFloorChannel ((1 : Rat)/2) = 127
    ∧ makeHeightmap [(1 : Rat)/2] 1 1
        ≠ [specFloorChannel ((1 : Rat)/2), specFloorChannel ((1 : Rat)/2),
           specFloorChannel ((1 : Rat)/2), 255] := by
  have h1 : makeHeightmap [(1 : Rat)/2] 1 1 = [128, 128, 128, 255] := by
    norm_num [makeHeightmap, heightmapStep, jsIndexGet, jsNumToUint8Clamp, uint8Clamp,
      List.range_succ, show ((127 : Int)).toNat = 127 from rfl]
    decide
  have h2 : specFloorChannel ((1 : Rat)/2) = 127 := by
    norm_num [specFloorChannel, show ((127 : Int)).toNat = 127 from rfl]
  refine ⟨h1, h2, ?_⟩
  rw [h1, h2]
  decide

/-- C2 (amended): for a flat grid matching the W×H size, the task yields a
pixel array of length W*H*4 in which, for every cell value v, the R, G and
B channels all hold ToUint8Clamp(v*255) — clamp to [0, 255] followed by
round-half-to-even, the Uint8ClampedArray write conversion, rather than
floor — and the A channel holds 255; in particular value 1.0 encodes to
{255, 255, 255, 255} and value 0.0 to {0, 0, 0, 255}. -/
theorem c2_heightmap_channels (buffer : List Rat) (width height i : Nat) (v : Rat)
    (hlen : buffer.length = width * height) (hi : i < width * height)
    (hv : buffer[i]? = some v) :
    (makeHeightmap buffer width height)[i * 4]? = some (uint8Clamp (v * 255))
    ∧ (makeHeightmap buffer width height)[i * 4 + 1]? = some (uint8Clamp (v * 255))
    ∧ (makeHeightmap buffer width height)[i * 4 + 2]? = some (uint8Clamp (v * 255))
    ∧ (makeHeightmap buffer width height)[i * 4 + 3]? = some 255
    ∧ (makeHeightmap buffer width height).length = width * height * 4 := by
  have hjs : jsIndexGet buffer (i : Int) = some v := by
    unfold jsIndexGet
    rw [if_neg (by omega), Int.toNat_natCast]
    exact hv
  have hcell := heightmap_fold_cells buffer (width * height * 4)
      (List.replicate (width * height * 4) 0) i (by omega)
      (by simp only [List.length_replicate]; omega)
  rw [hjs] at hcell
  unfold makeHeightmap
  refine ⟨hcell.1, hcell.2.1, hcell.2.2.1, hcell.2.2.2, ?_⟩
  rw [heightmap_fold_length]
  simp

/-- C2 witness: the channel equations on the 1×1 grid holding 1.0. -/
theorem c2_heightmap_channels_witness :
    (([(1 : Rat)] : List Rat).length = 1 * 1)
    ∧ (0 < 1 * 1)
    ∧ (([(1 : Rat)] : List Rat)[0]? = some 1)
    ∧ ((makeHeightmap [(1 : Rat)] 1 1)[0 * 4]? = some (uint8Clamp ((1 : Rat) * 255))
       ∧ (makeHeightmap [(1 : Rat)] 1 1)[0 * 4 + 1]? = some (uint8Clamp ((1 : Rat) * 255))
       ∧ (makeHeightmap [(1 : Rat)] 1 1)[0 * 4 + 2]? = some (uint8Clamp ((1 : Rat) * 255))
       ∧ (makeHeightmap [(1 : Rat)] 1 1)[0 * 4 + 3]? = some 255
       ∧ (makeHeightmap [(1 : Rat)] 1 1).length = 1 * 1 * 4) :=
  ⟨rfl, by decide, rfl,
   c2_heightmap_channels [(1 : Rat)] 1 1 0 1 rfl (by decide) rfl⟩

end Magma
